import Mathlib

/-!
Shallow embedding of the spaced-repetition scheduler of `eng-learner`
(`src/backend/src/db/mod.rs`), together with theorems settling the
specification claims about it.

Modelling conventions:
* Rust `f64` values (`ease_factor`, memory strength intermediates) are
  embedded as exact rationals `ℚ`, except the memory-strength estimator
  whose `exp` forces real numbers `ℝ`.
* Timestamps are integers counting minutes; a calendar date is its day
  number, obtained from a timestamp by flooring to whole days (this models
  formatting a timestamp with a date-only format).
* Database `NULL` is `Option.none`; the `chrono` timestamp parse results
  are passed in as `Option Int` (`none` = unparseable string).
* A Rust panic (out-of-bounds index into the interval ladder) is modelled
  as `Option.none` / an explicit error value, distinct from the `sqlx`
  row-not-found error.
-/

/-- The learning-phase interval ladder in minutes: `LEARNING_INTERVALS` at
`db/mod.rs:389`. -/
def LEARNING_INTERVALS : List Int := [20, 60, 540, 1440]

/-- Rust `as i32` applied to a (here: exact rational) `f64`: truncation
toward zero. -/
def ratTrunc (q : ℚ) : Int := if 0 ≤ q then ⌊q⌋ else ⌈q⌉

/-- Rust indexing `LEARNING_INTERVALS[i]`: `none` models the panic on an
out-of-bounds index (a negative `i32` cast to `usize` is out of bounds). -/
def ladderGet (i : Int) : Option Int :=
  if 0 ≤ i ∧ i < 4 then some (LEARNING_INTERVALS.getD i.toNat 0) else none

/-- The tuple `(new_interval_minutes, new_learning_step, new_ease,
new_interval_days)` computed by `review_vocabulary` (`db/mod.rs:569`). -/
structure SchedOutcome where
  new_interval_minutes : Int
  new_learning_step : Int
  new_ease : ℚ
  new_interval_days : Int
deriving DecidableEq

/-- The pure scheduling core of `review_vocabulary` (`db/mod.rs:569-590`):
from the fetched `ease_factor`, `learning_step` (already coalesced to 0 when
`NULL`), `interval_days` and the caller's `quality`, compute the new
scheduling tuple. `none` models the Rust panic on a ladder index out of
bounds (possible only for `learning_step ≤ -2`). -/
def advance (ease_factor : ℚ) (learning_step interval_days quality : Int) :
    Option SchedOutcome :=
  if quality < 2 then
    some ⟨LEARNING_INTERVALS.getD 0 0, 0, max (ease_factor - 0.2) 1.3, 0⟩
  else if learning_step < 4 then
    let next_step := min (learning_step + 1) 4
    if next_step < 4 then
      (ladderGet next_step).map fun m => ⟨m, next_step, ease_factor, 0⟩
    else
      some ⟨2 * 24 * 60, 4, ease_factor, 2⟩
  else
    let new_interval_days :=
      if quality = 2 then max (ratTrunc ((interval_days : ℚ) * ease_factor)) 2
      else if quality = 3 then
        max (ratTrunc ((interval_days : ℚ) * ease_factor * 1.3)) 3
      else max interval_days 2
    let new_ease := if quality = 3 then min (ease_factor + 0.1) 3.0 else ease_factor
    some ⟨new_interval_days * 24 * 60, learning_step + 1, new_ease, new_interval_days⟩

/-- Calendar date (day number) of a timestamp in minutes: formatting a
timestamp with the date-only format `%Y-%m-%d` truncates it to its day. -/
def dayOf (t : Int) : Int := t / 1440

/-- One row of the `user_vocabulary` table (`db/mod.rs:56-73`), restricted
to the per-user scheduling fields the store reads and writes. -/
structure UVRow where
  user_id : String
  ease_factor : ℚ
  interval_days : Int
  interval_minutes : Int
  due_date : Option Int
  due_at : Option Int
  review_count : Int
  learning_step : Int
  lapses : Int
  source_video_id : Option String
  source_sentence : Option String
  created_at : Int
  last_reviewed_at : Option Int
deriving DecidableEq

/-- The per-user-row effect of `save_vocabulary` (`db/mod.rs:451-473`):
the `INSERT ... ON CONFLICT (user_id, vocabulary_id) DO UPDATE` on
`user_vocabulary`. `existing` is the row already present for this
(user, vocabulary) pair, if any. A fresh insert binds `learning_step = 0`
and takes the column defaults `ease_factor 2.5`, `interval_days 0`,
`review_count 0`, `lapses 0`, `created_at NOW()`; the conflict arm updates
only `due_date`, `due_at` and `interval_minutes`. -/
def save_vocabulary (existing : Option UVRow) (user_id : String)
    (source_video_id source_sentence : Option String) (now : Int) : UVRow :=
  let today := dayOf now
  let due_at := now + LEARNING_INTERVALS.getD 0 0
  match existing with
  | none =>
      { user_id := user_id
        ease_factor := 2.5
        interval_days := 0
        interval_minutes := LEARNING_INTERVALS.getD 0 0
        due_date := some today
        due_at := some due_at
        review_count := 0
        learning_step := 0
        lapses := 0
        source_video_id := source_video_id
        source_sentence := source_sentence
        created_at := now
        last_reviewed_at := none }
  | some r =>
      { r with
        due_date := some today
        due_at := some due_at
        interval_minutes := LEARNING_INTERVALS.getD 0 0 }

/-- Failure modes of `review_vocabulary`: the `fetch_one` error when no
(user, vocabulary) row exists, and the Rust panic on a bad ladder index. -/
inductive ReviewError where
  | notFound
  | indexError
deriving DecidableEq

/-- The function `review_vocabulary` (`db/mod.rs:554-622`) at the level of
the single fetched row: `fetched` is the result of the `SELECT` (with
`learning_step` already coalesced to 0 when `NULL`), and on success the
returned row is the one written back by the `UPDATE` (which sets
`ease_factor`, `interval_days`, `interval_minutes`, `due_date`, `due_at`,
`learning_step`, increments `review_count` and stamps `last_reviewed_at`;
it does not touch `lapses`). -/
def review_vocabulary (fetched : Option UVRow) (quality now : Int) :
    Except ReviewError UVRow :=
  match fetched with
  | none => .error .notFound
  | some r =>
    match advance r.ease_factor r.learning_step r.interval_days quality with
    | none => .error .indexError
    | some o =>
        .ok { r with
              ease_factor := o.new_ease
              interval_days := o.new_interval_days
              interval_minutes := o.new_interval_minutes
              due_date := some (dayOf (now + o.new_interval_minutes))
              due_at := some (now + o.new_interval_minutes)
              learning_step := o.new_learning_step
              review_count := r.review_count + 1
              last_reviewed_at := some now }

/-- SQL `x <= bound` for a nullable column `x`: `NULL <= bound` is not
true. -/
def sqlLeSome (x : Option Int) (bound : Int) : Bool :=
  match x with
  | some v => v ≤ bound
  | none => false

/-- The `WHERE` condition of the `due_only` query in `get_vocabulary_list`
(`db/mod.rs:491-494`), keeping the source's three disjuncts:
`due_at IS NULL OR due_at <= now OR (due_at IS NULL AND (due_date IS NULL
OR due_date <= now))`. The date column is compared at day granularity
(the lexicographic string comparison of a date against a timestamp of day
`d` holds exactly when the date is at most `d`). -/
def dueCond (now : Int) (r : UVRow) : Bool :=
  r.due_at.isNone || sqlLeSome r.due_at now ||
    (r.due_at.isNone && (r.due_date.isNone || sqlLeSome r.due_date (dayOf now)))

/-- The sort key `COALESCE(due_at, due_date)` of the `due_only` query, on a
common minute scale (a date used as a key stands for its day's start). -/
def coalesceKey (r : UVRow) : Option Int :=
  match r.due_at with
  | some t => some t
  | none => r.due_date.map (fun d => d * 1440)

/-- Ascending SQL ordering on a nullable sort key: `NULL` sorts last. -/
def keyLe (a b : Option Int) : Bool :=
  match a, b with
  | none, none => true
  | none, some _ => false
  | some _, none => true
  | some x, some y => x ≤ y

/-- The row selection and ordering of `get_vocabulary_list`
(`db/mod.rs:478-515`): with `due_only` it filters by `dueCond` and orders
by `COALESCE(due_at, due_date)` ascending, otherwise it returns all of the
user's rows ordered by `created_at` descending. (The Rust function then
maps each row to a `SavedVocabulary` value, attaching
`calculate_memory_strength`; that per-row decoration does not change which
rows appear nor their order.) -/
def get_vocabulary_list (rows : List UVRow) (user_id : String) (now : Int)
    (due_only : Bool) : List UVRow :=
  if due_only then
    (rows.filter (fun r => r.user_id == user_id && dueCond now r)).mergeSort
      (fun a b => keyLe (coalesceKey a) (coalesceKey b))
  else
    (rows.filter (fun r => r.user_id == user_id)).mergeSort
      (fun a b => decide (b.created_at ≤ a.created_at))

/-- The memory-strength estimator `calculate_memory_strength`
(`db/mod.rs:391-423`). `last_reviewed_at` is `none` when the column is
`NULL`, and `some none` when it is present but unparseable; `created_at`
is the parse result of the creation timestamp (`none` = unparseable, which
falls back to `now`). Elapsed time is in whole minutes. -/
noncomputable def calculate_memory_strength
    (last_reviewed_at : Option (Option Int)) (interval_minutes learning_step : Int)
    (created_at : Option Int) (now : Int) : ℝ :=
  let last_time := (last_reviewed_at.getD none).getD (created_at.getD now)
  let elapsed_minutes : ℝ := ((now - last_time : Int) : ℝ)
  let half_life : ℝ :=
    if learning_step = 0 ∧ interval_minutes ≤ 20 then 15
    else max ((interval_minutes : ℝ) * 0.4) 10
  let strength := Real.exp (-elapsed_minutes / half_life)
  max 0 (min strength 1)

/-- One row of the `user_progress` table (`db/mod.rs:93-103`), restricted
to the streak fields `update_streak` reads and writes. A row exists for
every user (inserted at account creation). -/
structure UserProgress where
  current_streak : Int
  longest_streak : Int
  last_study_date : Option Int
deriving DecidableEq

/-- The function `update_streak` (`db/mod.rs:814-857`), with dates as day
numbers so that `yesterday = today - 1`. The three arms mirror the Rust
`match`: same day is a no-op, yesterday increments the streak and raises
`longest_streak` with `GREATEST`, and any other previous date (or a `NULL`
one) resets the streak to 1. -/
def update_streak (p : UserProgress) (today : Int) : UserProgress :=
  let yesterday := today - 1
  match p.last_study_date with
  | some d =>
    if d = today then p
    else if d = yesterday then
      { p with
        current_streak := p.current_streak + 1
        longest_streak := max p.longest_streak (p.current_streak + 1)
        last_study_date := some today }
    else
      { p with
        current_streak := 1
        longest_streak := max p.longest_streak 1
        last_study_date := some today }
  | none =>
      { p with
        current_streak := 1
        longest_streak := max p.longest_streak 1
        last_study_date := some today }

/-- The scheduler state a repeated review acts on: the three columns
`review_vocabulary` reads back on the next call. -/
structure SchedCore where
  ease : ℚ
  step : Int
  days : Int
deriving DecidableEq

/-- One review step on the read-back state. -/
def advanceCore (s : SchedCore) (quality : Int) : Option SchedCore :=
  (advance s.ease s.step s.days quality).map fun o =>
    ⟨o.new_ease, o.new_learning_step, o.new_interval_days⟩

/-- `n` consecutive reviews, all graded `quality`. -/
def iterAdvance (quality : Int) : Nat → SchedCore → Option SchedCore
  | 0, s => some s
  | n + 1, s => (advanceCore s quality).bind (iterAdvance quality n)


/-! ## Helper lemmas -/

/-- Truncation toward zero agrees with the floor on nonnegative rationals. -/
theorem ratTrunc_eq_floor {q : ℚ} (h : 0 ≤ q) : ratTrunc q = ⌊q⌋ := if_pos h

/-- Every ladder entry is at least 20 minutes. -/
theorem ladder_ge_20 (n : Nat) (h : n < 4) : 20 ≤ LEARNING_INTERVALS.getD n 0 := by
  interval_cases n <;> decide

/-- The ladder lookup succeeds on an in-range index. -/
theorem ladderGet_eq (i : Int) (h0 : 0 ≤ i) (h4 : i < 4) :
    ladderGet i = some (LEARNING_INTERVALS.getD i.toNat 0) := by
  unfold ladderGet
  exact if_pos ⟨h0, h4⟩

/-- Branch equation: a failed answer (`quality < 2`) resets the schedule. -/
theorem advance_forgot (e : ℚ) (ls d q : Int) (hq : q < 2) :
    advance e ls d q = some ⟨20, 0, max (e - 0.2) 1.3, 0⟩ := by
  simp only [advance]
  rw [if_pos hq]
  rfl

/-- Branch equation: a passed answer while still climbing the ladder. -/
theorem advance_learning_step (e : ℚ) (ls d q : Int) (hq : ¬ q < 2)
    (h0 : 0 ≤ ls) (h4 : ls + 1 < 4) :
    advance e ls d q = some ⟨LEARNING_INTERVALS.getD (ls + 1).toNat 0, ls + 1, e, 0⟩ := by
  have hmin : min (ls + 1) 4 = ls + 1 := min_eq_left (by omega)
  simp only [advance]
  rw [if_neg hq, if_pos (by omega : ls < 4), hmin, if_pos h4,
    ladderGet_eq (ls + 1) (by omega) h4]
  rfl

/-- Branch equation: a passed answer at the last ladder step graduates. -/
theorem advance_graduate (e : ℚ) (ls d q : Int) (hq : ¬ q < 2)
    (hls : ls < 4) (h4 : ¬ ls + 1 < 4) :
    advance e ls d q = some ⟨2 * 24 * 60, 4, e, 2⟩ := by
  have hmin : min (ls + 1) 4 = 4 := min_eq_right (by omega)
  simp only [advance]
  rw [if_neg hq, if_pos hls, hmin, if_neg (by omega : ¬ (4:Int) < 4)]

/-- Branch equation: a passed answer in review phase. -/
theorem advance_review (e : ℚ) (ls d q : Int) (hq : ¬ q < 2) (hls : ¬ ls < 4) :
    advance e ls d q = some
      ⟨(if q = 2 then max (ratTrunc ((d : ℚ) * e)) 2
        else if q = 3 then max (ratTrunc ((d : ℚ) * e * 1.3)) 3
        else max d 2) * 24 * 60,
       ls + 1,
       if q = 3 then min (e + 0.1) 3.0 else e,
       if q = 2 then max (ratTrunc ((d : ℚ) * e)) 2
       else if q = 3 then max (ratTrunc ((d : ℚ) * e * 1.3)) 3
       else max d 2⟩ := by
  simp only [advance]
  rw [if_neg hq, if_neg hls]

/-- On a well-formed state (`0 ≤ learning_step`) the scheduling core always
produces an outcome. -/
theorem advance_isSome (e : ℚ) (ls d q : Int) (h : 0 ≤ ls) :
    (advance e ls d q).isSome = true := by
  by_cases h1 : q < 2
  · rw [advance_forgot e ls d q h1]
    rfl
  · by_cases h2 : ls < 4
    · by_cases h3 : ls + 1 < 4
      · rw [advance_learning_step e ls d q h1 h h3]
        rfl
      · rw [advance_graduate e ls d q h1 h2 h3]
        rfl
    · rw [advance_review e ls d q h1 h2]
      rfl

/-- Every outcome of the scheduling core carries an interval of at least 20
minutes. -/
theorem advance_interval_ge (e : ℚ) (ls d q : Int) (o : SchedOutcome)
    (ho : advance e ls d q = some o) (h : 0 ≤ ls) :
    20 ≤ o.new_interval_minutes := by
  by_cases h1 : q < 2
  · rw [advance_forgot e ls d q h1, Option.some_inj] at ho
    rw [← ho]
  · by_cases h2 : ls < 4
    · by_cases h3 : ls + 1 < 4
      · rw [advance_learning_step e ls d q h1 h h3, Option.some_inj] at ho
        rw [← ho]
        exact ladder_ge_20 (ls + 1).toNat (by omega)
      · rw [advance_graduate e ls d q h1 h2 h3, Option.some_inj] at ho
        rw [← ho]
        norm_num
    · rw [advance_review e ls d q h1 h2, Option.some_inj] at ho
      rw [← ho]
      show (20 : Int) ≤ (if q = 2 then max (ratTrunc ((d : ℚ) * e)) 2
        else if q = 3 then max (ratTrunc ((d : ℚ) * e * 1.3)) 3
        else max d 2) * 24 * 60
      have hd2 : (2 : Int) ≤ (if q = 2 then max (ratTrunc ((d : ℚ) * e)) 2
          else if q = 3 then max (ratTrunc ((d : ℚ) * e * 1.3)) 3
          else max d 2) := by
        split
        · exact le_max_right _ _
        split
        · have := le_max_right (ratTrunc ((d : ℚ) * e * 1.3)) 3
          omega
        · exact le_max_right _ _
      omega

/-- A passed answer still inside the learning phase leaves the ease factor
unchanged, whatever ladder step it lands on. -/
theorem advance_learning_ease (e : ℚ) (ls d q : Int) (o : SchedOutcome)
    (hq : ¬ q < 2) (hls : ls < 4) (ho : advance e ls d q = some o) :
    o.new_ease = e := by
  simp only [advance] at ho
  rw [if_neg hq, if_pos hls] at ho
  by_cases h3 : min (ls + 1) 4 < 4
  · rw [if_pos h3] at ho
    cases hl : ladderGet (min (ls + 1) 4) with
    | none =>
        rw [hl] at ho
        cases ho
    | some m =>
        rw [hl] at ho
        have ho2 : (⟨m, min (ls + 1) 4, e, 0⟩ : SchedOutcome) = o :=
          Option.some_inj.mp ho
        rw [← ho2]
  · rw [if_neg h3] at ho
    have ho2 : (⟨2 * 24 * 60, 4, e, 2⟩ : SchedOutcome) = o :=
      Option.some_inj.mp ho
    rw [← ho2]

/-- The `ease_factor` clamp bounds are preserved by a single review step. -/
theorem advance_ease_mem (e : ℚ) (ls d q : Int) (o : SchedOutcome)
    (ho : advance e ls d q = some o) (hlo : 1.3 ≤ e) (hhi : e ≤ 3) :
    1.3 ≤ o.new_ease ∧ o.new_ease ≤ 3 := by
  by_cases h1 : q < 2
  · rw [advance_forgot e ls d q h1, Option.some_inj] at ho
    rw [← ho]
    constructor
    · exact le_max_right _ _
    · show max (e - 0.2) 1.3 ≤ 3
      rw [max_le_iff]
      constructor <;> norm_num <;> linarith
  · by_cases h2 : ls < 4
    · rw [advance_learning_ease e ls d q o h1 h2 ho]
      exact ⟨hlo, hhi⟩
    · rw [advance_review e ls d q h1 h2, Option.some_inj] at ho
      rw [← ho]
      show 1.3 ≤ (if q = 3 then min (e + 0.1) 3.0 else e) ∧
        (if q = 3 then min (e + 0.1) 3.0 else e) ≤ 3
      split
      · constructor
        · rw [le_min_iff]
          constructor <;> norm_num <;> linarith
        · have := min_le_right (e + 0.1) 3.0
          have h30 : (3.0 : ℚ) = 3 := by norm_num
          linarith [h30 ▸ this]
      · exact ⟨hlo, hhi⟩

/-- Reduction of `review_vocabulary` on a present row once the scheduling
core's outcome is known. -/
theorem review_vocabulary_eq (r : UVRow) (q now : Int) (o : SchedOutcome)
    (h : advance r.ease_factor r.learning_step r.interval_days q = some o) :
    review_vocabulary (some r) q now = Except.ok { r with
      ease_factor := o.new_ease
      interval_days := o.new_interval_days
      interval_minutes := o.new_interval_minutes
      due_date := some (dayOf (now + o.new_interval_minutes))
      due_at := some (now + o.new_interval_minutes)
      learning_step := o.new_learning_step
      review_count := r.review_count + 1
      last_reviewed_at := some now } := by
  simp only [review_vocabulary]
  rw [h]

/-! ## Claim C9 — streak update -/

/-- C9: `update_streak` leaves all counters unchanged when the user already
studied today; on a study event one calendar day after the last it
increments `current_streak`, raises `longest_streak` to the max with the
new current streak and stamps today; on any other previous date (a gap, or
a first event with no recorded date) it resets `current_streak` to 1,
raises `longest_streak` to `max longest_streak 1` and stamps today. -/
theorem update_streak_spec (p : UserProgress) (today : Int) :
    (p.last_study_date = some today → update_streak p today = p) ∧
    (p.last_study_date = some (today - 1) →
      update_streak p today =
        { current_streak := p.current_streak + 1
          longest_streak := max p.longest_streak (p.current_streak + 1)
          last_study_date := some today }) ∧
    ((∀ d, p.last_study_date = some d → d ≠ today ∧ d ≠ today - 1) →
      update_streak p today =
        { current_streak := 1
          longest_streak := max p.longest_streak 1
          last_study_date := some today }) := by
  refine ⟨?_, ?_, ?_⟩
  · intro h
    unfold update_streak
    rw [h]
    simp
  · intro h
    unfold update_streak
    rw [h]
    have hne : ¬ (today - 1 = today) := by omega
    simp [hne]
  · intro h
    unfold update_streak
    cases hd : p.last_study_date with
    | none => rfl
    | some d =>
        obtain ⟨h1, h2⟩ := h d hd
        simp [h1, h2]

/-- Witness for `update_streak_spec`: a streak of 3 last studied on day 99
becomes 4 on day 100, with the longest streak 5 untouched. -/
theorem update_streak_spec_witness :
    update_streak ⟨3, 5, some 99⟩ 100 = ⟨4, 5, some 100⟩ := by
  have h := (update_streak_spec ⟨3, 5, some 99⟩ 100).2.1 rfl
  rw [h]
  have hm : max (5 : Int) (3 + 1) = 5 := by norm_num
  rw [hm]
  rfl

/-! ## Claim C10 — upsert frame -/

/-- C10: re-saving an already-saved word overwrites only the `due_date`,
`due_at` and `interval_minutes` fields of the existing per-user row (with
today's date, now + 20 minutes and 20); every other schedule field —
ease_factor, interval_days, learning_step, review_count, lapses,
source_video_id, source_sentence, created_at, last_reviewed_at — is left
unchanged by the upsert. -/
theorem save_vocabulary_overwrites_only_due (r : UVRow) (u : String)
    (sv ss : Option String) (now : Int) :
    (save_vocabulary (some r) u sv ss now).due_date = some (dayOf now) ∧
    (save_vocabulary (some r) u sv ss now).due_at = some (now + 20) ∧
    (save_vocabulary (some r) u sv ss now).interval_minutes = 20 ∧
    (save_vocabulary (some r) u sv ss now).user_id = r.user_id ∧
    (save_vocabulary (some r) u sv ss now).ease_factor = r.ease_factor ∧
    (save_vocabulary (some r) u sv ss now).interval_days = r.interval_days ∧
    (save_vocabulary (some r) u sv ss now).review_count = r.review_count ∧
    (save_vocabulary (some r) u sv ss now).learning_step = r.learning_step ∧
    (save_vocabulary (some r) u sv ss now).lapses = r.lapses ∧
    (save_vocabulary (some r) u sv ss now).source_video_id = r.source_video_id ∧
    (save_vocabulary (some r) u sv ss now).source_sentence = r.source_sentence ∧
    (save_vocabulary (some r) u sv ss now).created_at = r.created_at ∧
    (save_vocabulary (some r) u sv ss now).last_reviewed_at = r.last_reviewed_at :=
  ⟨rfl, rfl, rfl, rfl, rfl, rfl, rfl, rfl, rfl, rfl, rfl, rfl, rfl⟩

/-! ## Claim C2 — re-save semantics -/

/-- C2 counterexample: re-saving a word whose per-user schedule has
graduated (learning_step 4, ease_factor 2.0, 7 completed reviews) does not
reset the schedule state: `learning_step` stays 4 (the claim requires 0)
and `ease_factor` stays 2.0 (the claim requires 2.5). -/
theorem resave_full_reset_cex :
    (save_vocabulary (some ⟨"u1", 2, 10, 14400, some 20731, some 29852640, 7, 4, 0,
        none, none, 29800000, some 29838240⟩) "u1" none none 29840000).learning_step = 4 ∧
    (save_vocabulary (some ⟨"u1", 2, 10, 14400, some 20731, some 29852640, 7, 4, 0,
        none, none, 29800000, some 29838240⟩) "u1" none none 29840000).ease_factor = 2 ∧
    (4 : Int) ≠ 0 ∧ (2 : ℚ) ≠ 2.5 :=
  ⟨rfl, rfl, by norm_num, by norm_num⟩

/-- C2 amended: re-saving an already-saved word for the same user resets
only the due schedule, and to exactly the values a fresh first save would
set — `due_date` today, `due_at` = now + 20 minutes, `interval_minutes`
20 — while the user's learning progress (`learning_step`, `ease_factor`,
`interval_days`, `review_count`, `lapses`) keeps its previous values: a
due-time restart, not a full reset to the initial Learning(0) state. -/
theorem resave_keeps_learning_progress (r : UVRow) (u : String)
    (sv ss : Option String) (now : Int) :
    (save_vocabulary (some r) u sv ss now).due_date =
      (save_vocabulary none u sv ss now).due_date ∧
    (save_vocabulary (some r) u sv ss now).due_at =
      (save_vocabulary none u sv ss now).due_at ∧
    (save_vocabulary (some r) u sv ss now).interval_minutes =
      (save_vocabulary none u sv ss now).interval_minutes ∧
    (save_vocabulary (some r) u sv ss now).due_at = some (now + 20) ∧
    (save_vocabulary (some r) u sv ss now).learning_step = r.learning_step ∧
    (save_vocabulary (some r) u sv ss now).ease_factor = r.ease_factor ∧
    (save_vocabulary (some r) u sv ss now).interval_days = r.interval_days ∧
    (save_vocabulary (some r) u sv ss now).review_count = r.review_count ∧
    (save_vocabulary (some r) u sv ss now).lapses = r.lapses :=
  ⟨rfl, rfl, rfl, rfl, rfl, rfl, rfl, rfl, rfl⟩

/-! ## Claim C3 — forgot transition -/

/-- C3 amended: for every fetched row and every quality < 2 the review
resets the schedule to Learning(0): `interval_minutes` 20, `ease_factor`
max(1.3, ease − 0.2), `interval_days` 0, step 0, due in 20 minutes and the
review count incremented — but the `lapses` column is left unchanged (no
code path ever writes it), so no lapse is recorded. -/
theorem review_forgot_resets (r : UVRow) (q now : Int) (hq : q < 2) :
    review_vocabulary (some r) q now =
      Except.ok { r with
        ease_factor := max (r.ease_factor - 0.2) 1.3
        interval_days := 0
        interval_minutes := 20
        due_date := some (dayOf (now + 20))
        due_at := some (now + 20)
        learning_step := 0
        review_count := r.review_count + 1
        last_reviewed_at := some now } ∧
    (∀ r', review_vocabulary (some r) q now = Except.ok r' →
      r'.lapses = r.lapses) := by
  have hadv := advance_forgot r.ease_factor r.learning_step r.interval_days q hq
  have h1 : review_vocabulary (some r) q now =
      Except.ok { r with
        ease_factor := max (r.ease_factor - 0.2) 1.3
        interval_days := 0
        interval_minutes := 20
        due_date := some (dayOf (now + 20))
        due_at := some (now + 20)
        learning_step := 0
        review_count := r.review_count + 1
        last_reviewed_at := some now } :=
    review_vocabulary_eq r q now ⟨20, 0, max (r.ease_factor - 0.2) 1.3, 0⟩ hadv
  refine ⟨h1, ?_⟩
  intro r' hr'
  rw [h1] at hr'
  injection hr' with h2
  rw [← h2]

/-- Witness for `review_forgot_resets`: a graduated row (step 4, ease 2.0,
3 lapses) reviewed with quality 0 resets to Learning(0) with ease 1.8 and
still 3 lapses. -/
theorem review_forgot_resets_witness :
    review_vocabulary (some ⟨"u2", 2, 10, 14400, some 14, some 21600, 7, 4, 3,
        none, none, 10000, some 20000⟩) 0 100000 =
      Except.ok ⟨"u2", max (2 - 0.2) 1.3, 0, 20, some 69, some 100020, 7 + 1, 0, 3,
        none, none, 10000, some 100000⟩ := by
  have h := (review_forgot_resets ⟨"u2", 2, 10, 14400, some 14, some 21600, 7, 4, 3,
      none, none, 10000, some 20000⟩ 0 100000 (by norm_num)).1
  rw [h]
  rfl

/-- C3 counterexample: reviewing a row that already records 3 lapses with
quality 0 (forgot) leaves the lapses counter at 3 — it is not incremented
to 4 as the claim requires. -/
theorem review_forgot_lapses_cex :
    (review_vocabulary (some ⟨"u3", 2, 10, 14400, some 14, some 21600, 7, 4, 3,
        none, none, 10000, some 20000⟩) 0 100000).toOption.map UVRow.lapses = some 3 ∧
    some (3 : Int) ≠ some (3 + 1 : Int) := by
  constructor
  · rfl
  · simp

/-! ## Claim C1 — quality validation -/

/-- C1 counterexample: a review call with quality 4 — outside the 0..3
range — on an existing row is not rejected as a caller error: the call
succeeds and produces a transition. -/
theorem review_out_of_range_accepted_cex :
    (3 : Int) < 4 ∧
    (review_vocabulary (some ⟨"u4", 2, 10, 14400, some 14, some 21600, 7, 4, 3,
        none, none, 10000, some 20000⟩) 4 100000).isOk = true := by
  constructor
  · norm_num
  · rfl

/-- C1 amended: the review operation never rejects a quality grade. For
every integer quality — inside or outside 0..3 — and every fetched row
with a well-formed step it produces a defined transition; its only error
is row-not-found when no (user, item) row exists; and in review phase an
out-of-range quality (∉ {2,3}, ≥ 2) falls into a catch-all that sets
`interval_days = max(old, 2)` with the ease factor unchanged. -/
theorem review_never_rejects_quality :
    (∀ (r : UVRow) (q now : Int), 0 ≤ r.learning_step →
      (review_vocabulary (some r) q now).isOk = true) ∧
    (∀ q now : Int, review_vocabulary none q now =
      Except.error ReviewError.notFound) ∧
    (∀ (r : UVRow) (q now : Int), ¬ r.learning_step < 4 → ¬ q < 2 →
      q ≠ 2 → q ≠ 3 →
      ∃ r', review_vocabulary (some r) q now = Except.ok r' ∧
        r'.interval_days = max r.interval_days 2 ∧
        r'.ease_factor = r.ease_factor) := by
  refine ⟨?_, ?_, ?_⟩
  · intro r q now h
    obtain ⟨o, ho⟩ := Option.isSome_iff_exists.mp
      (advance_isSome r.ease_factor r.learning_step r.interval_days q h)
    rw [review_vocabulary_eq r q now o ho]
    rfl
  · intro q now
    rfl
  · intro r q now hls hq hq2 hq3
    have hadv := advance_review r.ease_factor r.learning_step r.interval_days q hq hls
    simp only [if_neg hq2, if_neg hq3] at hadv
    exact ⟨_, review_vocabulary_eq r q now _ hadv, rfl, rfl⟩

/-- Witness for `review_never_rejects_quality`: quality 5 on a fresh
Learning(0) row still succeeds. -/
theorem review_never_rejects_quality_witness :
    (review_vocabulary (some ⟨"u5", 2.5, 0, 20, some 7, some 10100, 0, 0, 0,
        none, none, 10000, none⟩) 5 10080).isOk = true :=
  review_never_rejects_quality.1 ⟨"u5", 2.5, 0, 20, some 7, some 10100, 0, 0, 0,
    none, none, 10000, none⟩ 5 10080 (by norm_num)

/-! ## Claim C5 — review-phase growth -/

/-- C5: in review phase (step ≥ 4, with a nonnegative stored interval and
ease factor), quality 2 sets `interval_days` to max(2, floor(days × ease))
with the ease factor unchanged, and quality 3 sets it to max(3,
floor(days × ease × 1.3)) with the ease factor raised by 0.1 and capped at
3.0; both set `interval_minutes = new_days × 24 × 60`. In particular
interval_days 10 with ease 2.0 under quality 2 yields 20 days. -/
theorem review_phase_growth (e : ℚ) (ls d : Int) (h4 : ¬ ls < 4)
    (hd : 0 ≤ d) (he : 0 ≤ e) :
    advance e ls d 2 = some ⟨max ⌊(d : ℚ) * e⌋ 2 * 24 * 60, ls + 1, e,
      max ⌊(d : ℚ) * e⌋ 2⟩ ∧
    advance e ls d 3 = some ⟨max ⌊(d : ℚ) * e * 1.3⌋ 3 * 24 * 60, ls + 1,
      min (e + 0.1) 3.0, max ⌊(d : ℚ) * e * 1.3⌋ 3⟩ ∧
    advance 2 4 10 2 = some ⟨20 * 24 * 60, 4 + 1, 2, 20⟩ := by
  have hdq : (0 : ℚ) ≤ (d : ℚ) := by exact_mod_cast hd
  have hnn2 : (0 : ℚ) ≤ (d : ℚ) * e := mul_nonneg hdq he
  have hnn3 : (0 : ℚ) ≤ (d : ℚ) * e * (13 / 10) := mul_nonneg hnn2 (by norm_num)
  refine ⟨?_, ?_, ?_⟩
  · rw [advance_review e ls d 2 (by norm_num) h4]
    norm_num [ratTrunc_eq_floor hnn2]
  · rw [advance_review e ls d 3 (by norm_num) h4]
    norm_num [ratTrunc_eq_floor hnn3]
  · rw [advance_review 2 4 10 2 (by norm_num) (by norm_num)]
    norm_num [ratTrunc]

/-- Witness for `review_phase_growth`: the scenario interval_days = 10,
ease_factor = 2.0, quality 2 in review phase. -/
theorem review_phase_growth_witness :
    advance 2 4 10 2 = some ⟨max ⌊((10 : Int) : ℚ) * 2⌋ 2 * 24 * 60, 4 + 1, 2,
      max ⌊((10 : Int) : ℚ) * 2⌋ 2⟩ :=
  (review_phase_growth 2 4 10 (by norm_num) (by norm_num) (by norm_num)).1

/-! ## Claim C6 — ease-factor invariant -/

/-- Iterated reviews with a fixed quality keep the ease factor inside the
clamp bounds. -/
theorem iterAdvance_ease (q : Int) (n : Nat) :
    ∀ (s s' : SchedCore), iterAdvance q n s = some s' →
      1.3 ≤ s.ease → s.ease ≤ 3 → 1.3 ≤ s'.ease ∧ s'.ease ≤ 3 := by
  induction n with
  | zero =>
      intro s s' h h1 h2
      have hs : s = s' := Option.some_inj.mp h
      rw [← hs]
      exact ⟨h1, h2⟩
  | succ n ih =>
      intro s s' h h1 h2
      unfold iterAdvance at h
      cases ha : advanceCore s q with
      | none =>
          rw [ha] at h
          cases h
      | some t =>
          rw [ha, Option.some_bind] at h
          unfold advanceCore at ha
          cases hadv : advance s.ease s.step s.days q with
          | none =>
              rw [hadv] at ha
              cases ha
          | some o =>
              rw [hadv] at ha
              have ht : (⟨o.new_ease, o.new_learning_step, o.new_interval_days⟩ :
                  SchedCore) = t := Option.some_inj.mp ha
              have hb := advance_ease_mem s.ease s.step s.days q o hadv h1 h2
              exact ih t s' h (by rw [← ht]; exact hb.1) (by rw [← ht]; exact hb.2)

/-- C6: the ease-factor bounds [1.3, 3.0] are an invariant of the review
transition: any single step from a state with ease in [1.3, 3.0] stays in
[1.3, 3.0]; consequently no sequence of consecutive quality-0 reviews ever
drives the ease factor below 1.3, and no sequence of quality-3 reviews
ever drives it above 3.0. -/
theorem ease_factor_bounds :
    (∀ (e : ℚ) (ls d q : Int) (o : SchedOutcome),
      advance e ls d q = some o → 1.3 ≤ e → e ≤ 3 →
        1.3 ≤ o.new_ease ∧ o.new_ease ≤ 3) ∧
    (∀ (s : SchedCore) (n : Nat) (s' : SchedCore),
      iterAdvance 0 n s = some s' → 1.3 ≤ s.ease → s.ease ≤ 3 →
        1.3 ≤ s'.ease ∧ s'.ease ≤ 3) ∧
    (∀ (s : SchedCore) (n : Nat) (s' : SchedCore),
      iterAdvance 3 n s = some s' → 1.3 ≤ s.ease → s.ease ≤ 3 →
        1.3 ≤ s'.ease ∧ s'.ease ≤ 3) :=
  ⟨fun e ls d q o ho h1 h2 => advance_ease_mem e ls d q o ho h1 h2,
   fun s n s' h h1 h2 => iterAdvance_ease 0 n s s' h h1 h2,
   fun s n s' h h1 h2 => iterAdvance_ease 3 n s s' h h1 h2⟩

/-- Witness for `ease_factor_bounds`: one quality-0 step from ease 2.5
lands on max(2.3, 1.3), inside the bounds. -/
theorem ease_factor_bounds_witness :
    1.3 ≤ max ((2.5 : ℚ) - 0.2) 1.3 ∧ max ((2.5 : ℚ) - 0.2) 1.3 ≤ 3 :=
  ease_factor_bounds.1 2.5 0 0 0 ⟨20, 0, max (2.5 - 0.2) 1.3, 0⟩
    (advance_forgot 2.5 0 0 0 (by norm_num)) (by norm_num) (by norm_num)

/-! ## Claim C7 — totality and future due date -/

/-- C7: for every well-formed fetched row (step ≥ 0) and every valid
quality grade 0..3 the review operation is total — it produces an updated
row, never a panic — and the `due_at` it writes is strictly later than the
`now` of the call, the computed interval being at least 20 minutes. -/
theorem review_total_and_due_future (r : UVRow) (q now : Int)
    (hstep : 0 ≤ r.learning_step) (hq0 : 0 ≤ q) (hq3 : q ≤ 3) :
    ∃ r', review_vocabulary (some r) q now = Except.ok r' ∧
      20 ≤ r'.interval_minutes ∧
      ∃ t, r'.due_at = some t ∧ now < t := by
  obtain ⟨o, ho⟩ := Option.isSome_iff_exists.mp
    (advance_isSome r.ease_factor r.learning_step r.interval_days q hstep)
  have him := advance_interval_ge r.ease_factor r.learning_step
    r.interval_days q o ho hstep
  exact ⟨_, review_vocabulary_eq r q now o ho, him,
    now + o.new_interval_minutes, rfl, by omega⟩

/-- Witness for `review_total_and_due_future`: a fresh Learning(0) row
reviewed with quality 2. -/
theorem review_total_and_due_future_witness :
    ∃ r', review_vocabulary (some ⟨"u6", 2.5, 0, 20, some 7, some 10100, 0, 0, 0,
        none, none, 10000, none⟩) 2 10080 = Except.ok r' ∧
      20 ≤ r'.interval_minutes ∧ ∃ t, r'.due_at = some t ∧ 10080 < t :=
  review_total_and_due_future ⟨"u6", 2.5, 0, 20, some 7, some 10100, 0, 0, 0,
    none, none, 10000, none⟩ 2 10080 (by norm_num) (by norm_num) (by norm_num)

/-! ## Claim C4 — list selection and ordering -/

/-- Transitivity of the nullable-key ordering. -/
theorem keyLe_trans (a b c : Option Int) (hab : keyLe a b = true)
    (hbc : keyLe b c = true) : keyLe a c = true := by
  cases a <;> cases b <;> cases c <;> simp_all [keyLe] <;> omega

/-- Totality of the nullable-key ordering. -/
theorem keyLe_total (a b : Option Int) : (keyLe a b || keyLe b a) = true := by
  cases a <;> cases b <;> simp_all [keyLe] <;> omega

/-- The due filter admits exactly the rows with no `due_at` or a `due_at`
at most `now`: the third disjunct of the SQL condition is subsumed by its
first, `due_at IS NULL`, so the `due_date` column never excludes a row. -/
theorem dueCond_iff (now : Int) (r : UVRow) :
    dueCond now r = true ↔
      r.due_at = none ∨ ∃ t, r.due_at = some t ∧ t ≤ now := by
  cases h : r.due_at with
  | none => simp [dueCond, h, sqlLeSome]
  | some t => simp [dueCond, h, sqlLeSome]

/-- C4 counterexample: a legacy record with no `due_at` and a `due_date`
on day 200 — in the future, as now is on day 100 — is returned by the
`due_only` query; the claim requires it to be excluded. -/
theorem due_only_future_due_date_included_cex :
    get_vocabulary_list
      [⟨"u", 2, 0, 0, some 200, none, 0, 0, 0, none, none, 0, none⟩]
      "u" 144000 true =
      [⟨"u", 2, 0, 0, some 200, none, 0, 0, 0, none, none, 0, none⟩] ∧
    dayOf 144000 < 200 := by
  constructor
  · simp [get_vocabulary_list, dueCond]
  · norm_num [dayOf]

/-- C4 amended: with `due_only` the list operation returns exactly the
user's records whose `due_at` is at most `now`, together with all records
that have no `due_at` timestamp at all — regardless of their `due_date`,
which the query's leading `due_at IS NULL` disjunct admits
unconditionally — ordered ascending by the coalesced due key (`due_at`,
else `due_date`, `NULL`s last); with `due_only` false it returns all of
the user's records ordered by creation time descending. -/
theorem get_vocabulary_list_spec (rows : List UVRow) (u : String) (now : Int) :
    (∀ r, r ∈ get_vocabulary_list rows u now true ↔
      r ∈ rows ∧ r.user_id = u ∧
        (r.due_at = none ∨ ∃ t, r.due_at = some t ∧ t ≤ now)) ∧
    (get_vocabulary_list rows u now true).Pairwise
      (fun a b => keyLe (coalesceKey a) (coalesceKey b) = true) ∧
    (∀ r, r ∈ get_vocabulary_list rows u now false ↔
      r ∈ rows ∧ r.user_id = u) ∧
    (get_vocabulary_list rows u now false).Pairwise
      (fun a b => b.created_at ≤ a.created_at) := by
  have hdue : get_vocabulary_list rows u now true =
      (rows.filter (fun r => r.user_id == u && dueCond now r)).mergeSort
        (fun a b => keyLe (coalesceKey a) (coalesceKey b)) := rfl
  have hall : get_vocabulary_list rows u now false =
      (rows.filter (fun r => r.user_id == u)).mergeSort
        (fun a b => decide (b.created_at ≤ a.created_at)) := rfl
  refine ⟨?_, ?_, ?_, ?_⟩
  · intro r
    rw [hdue, (List.mergeSort_perm _ _).mem_iff, List.mem_filter]
    simp [dueCond_iff]
  · rw [hdue]
    exact @List.sorted_mergeSort UVRow
      (fun a b => keyLe (coalesceKey a) (coalesceKey b))
      (fun a b c hab hbc => keyLe_trans _ _ _ hab hbc)
      (fun a b => keyLe_total _ _) _
  · intro r
    rw [hall, (List.mergeSort_perm _ _).mem_iff, List.mem_filter]
    simp
  · rw [hall]
    have hs := @List.sorted_mergeSort UVRow
      (fun a b => decide (b.created_at ≤ a.created_at))
      (fun a b c hab hbc => by
        simp only [decide_eq_true_eq] at *
        omega)
      (fun a b => by
        simp only [Bool.or_eq_true, decide_eq_true_eq]
        omega)
      (rows.filter (fun r => r.user_id == u))
    exact hs.imp (fun h => of_decide_eq_true h)

/-! ## Claim C8 — memory strength -/

/-- Closed form of the estimator on a parseable last-review timestamp. -/
theorem calculate_memory_strength_closed (t0 im ls : Int) (ca : Option Int)
    (now : Int) :
    calculate_memory_strength (some (some t0)) im ls ca now =
      max 0 (min (Real.exp (-(((now - t0 : Int) : ℝ)) /
        (if ls = 0 ∧ im ≤ 20 then (15 : ℝ) else max ((im : ℝ) * 0.4) 10))) 1) :=
  rfl

/-- The estimator's half-life is always positive. -/
theorem half_life_pos (im ls : Int) :
    0 < (if ls = 0 ∧ im ≤ 20 then (15 : ℝ) else max ((im : ℝ) * 0.4) 10) := by
  split
  · norm_num
  · have := le_max_right ((im : ℝ) * 0.4) 10
    linarith

/-- C8: the memory-strength estimate always lies in [0, 1]; it is exactly
1.0 when no time has elapsed; when both stored timestamps are unparseable
it falls back to `now` and yields 1.0 instead of failing; for a fixed
last-review time it tends to 0 as `now` grows without bound; and it equals
the clamped exponential exp(−elapsed/half_life) with half_life = 15 when
step = 0 and interval ≤ 20, and half_life = max(10, 0.4 × interval)
otherwise. -/
theorem calculate_memory_strength_spec :
    (∀ lr im ls ca now, 0 ≤ calculate_memory_strength lr im ls ca now ∧
      calculate_memory_strength lr im ls ca now ≤ 1) ∧
    (∀ im ls ca now, calculate_memory_strength (some (some now)) im ls ca now = 1) ∧
    (∀ im ls now, calculate_memory_strength (some none) im ls none now = 1) ∧
    (∀ t0 im ls ca, Filter.Tendsto
      (fun now : Int => calculate_memory_strength (some (some t0)) im ls ca now)
      Filter.atTop (nhds 0)) ∧
    (∀ t0 im ls ca now, ls = 0 → im ≤ 20 →
      calculate_memory_strength (some (some t0)) im ls ca now =
        max 0 (min (Real.exp (-(((now - t0 : Int) : ℝ)) / 15)) 1)) ∧
    (∀ t0 im ls ca now, ¬ (ls = 0 ∧ im ≤ 20) →
      calculate_memory_strength (some (some t0)) im ls ca now =
        max 0 (min (Real.exp (-(((now - t0 : Int) : ℝ)) /
          max ((im : ℝ) * 0.4) 10)) 1)) := by
  refine ⟨?_, ?_, ?_, ?_, ?_, ?_⟩
  · intro lr im ls ca now
    constructor
    · exact le_max_left _ _
    · exact max_le (by norm_num) (min_le_right _ _)
  · intro im ls ca now
    rw [calculate_memory_strength_closed]
    push_cast
    norm_num
  · intro im ls now
    show max 0 (min (Real.exp (-(((now - now : Int) : ℝ)) / _)) 1) = 1
    push_cast
    norm_num
  · intro t0 im ls ca
    simp only [calculate_memory_strength_closed]
    have hl := half_life_pos im ls
    have hcast : Filter.Tendsto (fun now : Int => ((now : ℝ) + (-(t0 : ℝ))))
        Filter.atTop Filter.atTop :=
      Filter.tendsto_atTop_add_const_right _ _ tendsto_intCast_atTop_atTop
    have hexp : Filter.Tendsto
        (fun now : Int => Real.exp (-(((now - t0 : Int) : ℝ)) /
          (if ls = 0 ∧ im ≤ 20 then (15 : ℝ) else max ((im : ℝ) * 0.4) 10)))
        Filter.atTop (nhds 0) := by
      apply Real.tendsto_exp_atBot.comp
      apply Filter.Tendsto.atBot_div_const hl
      apply Filter.tendsto_neg_atBot_iff.mpr
      have : (fun now : Int => (((now - t0 : Int) : ℝ))) =
          (fun now : Int => ((now : ℝ) + (-(t0 : ℝ)))) := by
        funext n
        push_cast
        ring
      rw [this]
      exact hcast
    refine tendsto_of_tendsto_of_tendsto_of_le_of_le tendsto_const_nhds hexp
      (fun n => le_max_left _ _) (fun n => max_le (Real.exp_pos _).le (min_le_left _ _))
  · intro t0 im ls ca now h1 h2
    rw [calculate_memory_strength_closed, if_pos ⟨h1, h2⟩]
  · intro t0 im ls ca now h
    rw [calculate_memory_strength_closed, if_neg h]

/-- Witness for `calculate_memory_strength_spec`: a fresh item (step 0,
interval 20) uses the 15-minute half-life. -/
theorem calculate_memory_strength_spec_witness :
    calculate_memory_strength (some (some 0)) 20 0 none 0 =
      max 0 (min (Real.exp (-(((0 - 0 : Int) : ℝ)) / 15)) 1) :=
  calculate_memory_strength_spec.2.2.2.2.1 0 20 0 none 0 rfl (by norm_num)
